import Mathlib

/-!
Verification development for the kafkacli repository (Go): a pair of CLI
clients for the Kafka Connect REST interface and the Confluent schema
registry.  The HTTP remote is modelled as an environment supplying the
response of each client call; every embedded command additionally records
the sequence of client calls it issues (its trace), so that claims about
which HTTP calls are or are not made can be stated and proved.
-/

namespace Kafkacli

/-!
## Regular-expression model

`handleConnectorCommands` interprets the user-supplied `connector` argument
with `regexp.MustCompile` and `MatchString`, i.e. unanchored matching of an
RE2 pattern against each connector name.  We model the fragment of RE2 the
specification exercises: literal characters, the any-character atom `.` and
the postfix repetition `*`.  `matchesPre r cs` decides (by Brzozowski
derivatives) whether `r` matches some prefix of `cs`; `searchB` is the
unanchored search used by Go's `MatchString`.
-/

inductive Regex where
  | emp
  | eps
  | chr (c : Char)
  | anyc
  | cat (r1 r2 : Regex)
  | alt (r1 r2 : Regex)
  | star (r : Regex)
deriving DecidableEq

def Regex.nullable : Regex → Bool
  | .emp => false
  | .eps => true
  | .chr _ => false
  | .anyc => false
  | .cat r1 r2 => r1.nullable && r2.nullable
  | .alt r1 r2 => r1.nullable || r2.nullable
  | .star _ => true

/-- Concatenation with the empty-set and empty-string simplifications. -/
def Regex.catS : Regex → Regex → Regex
  | .emp, _ => .emp
  | .eps, r => r
  | r1, r2 => .cat r1 r2

def Regex.deriv : Regex → Char → Regex
  | .emp, _ => .emp
  | .eps, _ => .emp
  | .chr c, d => if c = d then .eps else .emp
  | .anyc, _ => .eps
  | .cat r1 r2, d =>
      if r1.nullable then .alt (Regex.catS (r1.deriv d) r2) (r2.deriv d)
      else Regex.catS (r1.deriv d) r2
  | .alt r1 r2, d => .alt (r1.deriv d) (r2.deriv d)
  | .star r, d => Regex.catS (r.deriv d) (.star r)

/-- Does `r` match some prefix of `cs`? -/
def matchesPre : Regex → List Char → Bool
  | r, [] => r.nullable
  | r, c :: rest => r.nullable || matchesPre (r.deriv c) rest

/-- Unanchored search: does `r` match some substring of `cs`?  This is the
semantics of Go's `Regexp.MatchString`. -/
def searchB : Regex → List Char → Bool
  | r, [] => matchesPre r []
  | r, cs@(_ :: rest) => matchesPre r cs || searchB r rest

def searchStr (r : Regex) (s : String) : Bool := searchB r s.data

/-- The metacharacters of the RE2 fragment we do not translate to an atom. -/
def metaChars : List Char := ['*', '+', '?', '(', ')', '[', ']', '\x7b', '\x7d', '|', '\\', '^', '$']

def compileAtom (c : Char) : Option Regex :=
  if c = '.' then some .anyc
  else if metaChars.contains c then none
  else some (.chr c)

/-- Compile a pattern string (as a character list) of the supported RE2
fragment: atoms optionally followed by a postfix `*`.  Mirrors what
`regexp.MustCompile` produces on this fragment; unsupported patterns are
outside the model and map to `none`. -/
def compileList : List Char → Option Regex
  | [] => some .eps
  | [c] => (compileAtom c).map (fun a => .cat a .eps)
  | c :: d :: rest =>
    match compileAtom c with
    | none => none
    | some a =>
      if d = '*' then (compileList rest).map (fun r => .cat (.star a) r)
      else (compileList (d :: rest)).map (fun r => .cat a r)

def compilePattern (s : String) : Option Regex := compileList s.data

/-- A literal (metacharacter-free) pattern compiles to this chain. -/
def litPattern : List Char → Regex
  | [] => .eps
  | c :: rest => .cat (.chr c) (litPattern rest)

/-- `s` contains none of the characters `compileAtom` treats specially. -/
def isLiteralStr (s : String) : Bool :=
  s.data.all (fun c => !(metaChars.contains c) && c != '.')

/-- Boolean list-prefix test (on characters). -/
def isPreB : List Char → List Char → Bool
  | [], _ => true
  | _ :: _, [] => false
  | a :: q, c :: cs => a == c && isPreB q cs

/-- Boolean substring test: `q` occurs contiguously inside `cs`. -/
def substrB : List Char → List Char → Bool
  | q, [] => isPreB q []
  | q, cs@(_ :: rest) => isPreB q cs || substrB q rest

/-!
## Connect REST client model (connect/kafkaconnect.go)

`requestAndGetResponse` is the single HTTP funnel of the connect client:
every client method issues one request through it.  We model the HTTP
transport by the response it yields (status code and raw body text).
-/

structure HttpResponse where
  status : Nat
  body : String
deriving DecidableEq

/-- Embeds `requestAndGetResponse`: a response with status code in the
inclusive range 400..500 becomes an error whose message is the raw body;
any other status code yields the body as the successful payload. -/
def requestAndGetResponse (resp : HttpResponse) : Except String String :=
  if 400 ≤ resp.status ∧ resp.status ≤ 500 then .error resp.body else .ok resp.body

/-!
## Data model of the connect CLI (cmd/kafkaconnectcli/kafkaconnectcli.go)

Structures mirror the Go types; JSON wire (de)serialization is out of
scope, so a `map[string]string` configuration is an association list.
-/

structure TaskStatus where
  state : String
  id : Int
  workerId : String
  trace : String
deriving DecidableEq

structure ConnectorState where
  state : String
  workerId : String
deriving DecidableEq

structure ConnectorStatus where
  name : String
  connector : ConnectorState
  tasks : List TaskStatus
deriving DecidableEq

structure TaskRef where
  connector : String
  task : Int
deriving DecidableEq

structure ConnectorTasksConfig where
  name : String
  config : List (String × String)
  tasks : List TaskRef
deriving DecidableEq

def zeroConnectorTasksConfig : ConnectorTasksConfig := ⟨"", [], []⟩

def zeroConnectorStatus : ConnectorStatus := ⟨"", ⟨"", ""⟩, []⟩

/-- One event per connect-client call (each such call is one HTTP request). -/
inductive Ev where
  | listCall
  | statusCall (connector : String)
  | getConfigCall (connector : String)
  | deleteCall (connector : String)
  | pauseCall (connector : String)
  | resumeCall (connector : String)
  | restartCall (connector : String) (id : Int)
  | tasksCall (connector : String)
  | updateCall (connector : String) (config : List (String × String))
deriving DecidableEq

/-- The remote connect worker, abstracted as the response of each client
call.  A `none` for the error-only calls means a 2xx response. -/
structure ConnectEnv where
  listConnectors : Except String (List String)
  status : String → Except String ConnectorStatus
  getConfig : String → Except String ConnectorTasksConfig
  deleteConn : String → Option String
  pauseConn : String → Option String
  resumeConn : String → Option String
  restartTask : String → Int → Option String
  tasksOf : String → Except String String
  update : String → List (String × String) → Except String String

/-- Messages the connect CLI prints apart from the final JSON output. -/
inductive Out where
  | noMatchMsg (pat : String)
  | configDump (name : String) (config : List (String × String))
  | saveNote
  | deletedMsg (connector : String)
  | pausedMsg (connector : String)
  | resumedMsg (connector : String)
deriving DecidableEq

/-- A matcher as in the Go `Matcher` type: a boolean verdict, an optional
error, plus the client calls the matcher itself issued. -/
def MatcherM := String → Bool × Option String × List Ev

/-- The loop body of `findMatchingConnectors`.  In the source the loop
reads `matches, e := matcher(conn)`: the `:=` declares a NEW `e` that
shadows the named return `e`, so a matcher error breaks the loop but is
never returned — the names collected before the error are kept. -/
def matchLoop (matcher : MatcherM) : List String → List String × List Ev
  | [] => ([], [])
  | conn :: rest =>
    match matcher conn with
    | (_, some _, evs) => ([], evs)
    | (ok, none, evs) =>
      let (ms, tr) := matchLoop matcher rest
      (if ok then conn :: ms else ms, evs ++ tr)

/-- Embeds `findMatchingConnectors`: one `List()` call, then the loop.
Only the `List()` error reaches the caller (see `matchLoop`). -/
def findMatchingConnectors (env : ConnectEnv) (matcher : MatcherM) :
    Except String (List String) × List Ev :=
  match env.listConnectors with
  | .error m => (.error m, [.listCall])
  | .ok names =>
    let (ms, tr) := matchLoop matcher names
    (.ok ms, .listCall :: tr)

/-- The name-pattern matcher built in `handleConnectorCommands`:
`regexp.MustCompile(connector).MatchString(conn)` with a nil error. -/
def nameMatcher (re : Regex) : MatcherM := fun conn => (searchStr re conn, none, [])

/-- Models `strings.ToUpper` (ASCII; sufficient for the comparisons the
connect CLI performs). -/
def goToUpper (s : String) : String := String.mk (s.data.map Char.toUpper)

def connectStates : List String := ["RUNNING", "FAILED", "PAUSED", "UNASSIGNED"]

/-- The state matcher closed over in `handleListCommand`: one status fetch
per candidate; true when the connector state or any task state equals the
(already upcased) requested state. -/
def stateMatcher (env : ConnectEnv) (state : String) : MatcherM := fun conn =>
  match env.status conn with
  | .error m => (false, some m, [.statusCall conn])
  | .ok st =>
    ((st.connector.state == state) || st.tasks.any (fun t => t.state == state),
     none, [.statusCall conn])

/-- Embeds `handleListCommand`: upcase the `-with-state` argument; a
recognized state selects the state-filter path, anything else falls to the
plain `client.List()` call. -/
def handleListCommand (env : ConnectEnv) (state : String) :
    Except String (List String) × List Ev :=
  let s := goToUpper state
  if connectStates.contains s then findMatchingConnectors env (stateMatcher env s)
  else (env.listConnectors, [.listCall])

/-- Embeds `deleteConnector`: fetch the configuration first; only when
that fetch succeeds are the recovery dump printed and the delete issued
(the source guards both under `if e == nil`). -/
def deleteConnector (env : ConnectEnv) (connector : String) :
    Option String × List Ev × List Out :=
  match env.getConfig connector with
  | .error m => (some m, [.getConfigCall connector], [])
  | .ok cfg =>
    let dump : List Out := [.configDump cfg.name cfg.config, .saveNote]
    match env.deleteConn connector with
    | some m => (some m, [.getConfigCall connector, .deleteCall connector], dump)
    | none =>
      (none, [.getConfigCall connector, .deleteCall connector], dump ++ [.deletedMsg connector])

/-- The connector subcommands dispatched inside `handleConnectorCommands`. -/
inductive Cmd where
  | config
  | statusCmd
  | delete
  | resume
  | pause
  | tasks
  | restartFailed
deriving DecidableEq

/-- The value the command loop stores in `result` (Go `interface{}`).  On a
failed call Go assigns the zero value of the method's result type. -/
inductive RVal where
  | configV (c : ConnectorTasksConfig)
  | statusV (s : ConnectorStatus)
  | strV (s : String)
deriving DecidableEq

/-- Accumulated command outcome: the `result` and `e` variables of the Go
handler plus the calls issued and the messages printed so far. -/
structure CmdOut where
  res : Option RVal
  err : Option String
  trace : List Ev
  outs : List Out
deriving DecidableEq

/-- One iteration of the per-match loop in `handleConnectorCommands`.
`result, e = ...` assignments overwrite the accumulated `res`/`err`; in the
`restart-failed` arm `status, e := client.Status(conn)` shadows the outer
`e`, so its error is swallowed, and the per-task `Restart` errors are
discarded by the source as well. -/
def connCmdStep (env : ConnectEnv) (command : Cmd) (acc : CmdOut) (conn : String) : CmdOut :=
  match command with
  | .config =>
    match env.getConfig conn with
    | .error m =>
      { acc with res := some (.configV zeroConnectorTasksConfig), err := some m,
                 trace := acc.trace ++ [.getConfigCall conn] }
    | .ok cfg =>
      { acc with res := some (.configV cfg), err := none,
                 trace := acc.trace ++ [.getConfigCall conn] }
  | .statusCmd =>
    match env.status conn with
    | .error m =>
      { acc with res := some (.statusV zeroConnectorStatus), err := some m,
                 trace := acc.trace ++ [.statusCall conn] }
    | .ok st =>
      { acc with res := some (.statusV st), err := none,
                 trace := acc.trace ++ [.statusCall conn] }
  | .delete =>
    let d := deleteConnector env conn
    { acc with err := d.1, trace := acc.trace ++ d.2.1, outs := acc.outs ++ d.2.2 }
  | .resume =>
    match env.resumeConn conn with
    | some m => { acc with err := some m, trace := acc.trace ++ [.resumeCall conn] }
    | none =>
      { acc with err := none, trace := acc.trace ++ [.resumeCall conn],
                 outs := acc.outs ++ [.resumedMsg conn] }
  | .pause =>
    match env.pauseConn conn with
    | some m => { acc with err := some m, trace := acc.trace ++ [.pauseCall conn] }
    | none =>
      { acc with err := none, trace := acc.trace ++ [.pauseCall conn],
                 outs := acc.outs ++ [.pausedMsg conn] }
  | .tasks =>
    match env.tasksOf conn with
    | .error m =>
      { acc with res := some (.strV ""), err := some m,
                 trace := acc.trace ++ [.tasksCall conn] }
    | .ok s =>
      { acc with res := some (.strV s), err := none,
                 trace := acc.trace ++ [.tasksCall conn] }
  | .restartFailed =>
    match env.status conn with
    | .error _ => { acc with trace := acc.trace ++ [.statusCall conn] }
    | .ok st =>
      let restarts := (st.tasks.filter (fun t => t.state == "FAILED")).map
        (fun t => Ev.restartCall st.name t.id)
      { acc with trace := acc.trace ++ [.statusCall conn] ++ restarts }

/-- Embeds `handleConnectorCommands`: compile the pattern (`MustCompile`
panics outside our fragment, modelled by `none`), resolve the matches, then
run the subcommand over each match in order. -/
def handleConnectorCommands (env : ConnectEnv) (command : Cmd) (connector : String) :
    Option CmdOut :=
  (compilePattern connector).map fun re =>
    match findMatchingConnectors env (nameMatcher re) with
    | (.error m, tr) => { res := none, err := some m, trace := tr, outs := [] }
    | (.ok ms, tr) =>
      let outs0 : List Out := if ms.isEmpty then [.noMatchMsg connector] else []
      ms.foldl (connCmdStep env command)
        { res := none, err := none, trace := tr, outs := outs0 }

/-- The delete-all loop of `handleCommonsCommand`: deletes in list order
and breaks on the first failing `deleteConnector`. -/
def deleteAllLoop (env : ConnectEnv) : List String → List Ev × List Out
  | [] => ([], [])
  | conn :: rest =>
    match deleteConnector env conn with
    | (some _, tr, os) => (tr, os)
    | (none, tr, os) =>
      let (tr', os') := deleteAllLoop env rest
      (tr ++ tr', os ++ os')

/-- Embeds the `delete-all` arm of `handleCommonsCommand`.  The source
reads `connectors, e := client.List()`: that `:=` shadows the named return
`e`, so neither a `List` error nor a delete error ever reaches the caller
— the returned `err` is always `none`. -/
def handleDeleteAll (env : ConnectEnv) : CmdOut :=
  match env.listConnectors with
  | .error _ => { res := none, err := none, trace := [.listCall], outs := [] }
  | .ok names =>
    let (tr, os) := deleteAllLoop env names
    { res := none, err := none, trace := .listCall :: tr, outs := os }

/-!
## Scale command
-/

/-- Go map assignment `m[k] = v` on an association list: replace the
binding of `k` if present, append it otherwise. -/
def mapSet : List (String × String) → String → String → List (String × String)
  | [], k, v => [(k, v)]
  | (k', v') :: rest, k, v =>
    if k' = k then (k, v) :: rest else (k', v') :: mapSet rest k v

/-- Embeds `handleScaleCommand`: read-modify-write of the configuration,
overwriting `tasks.max` with `strconv.Itoa(tasks)`. -/
def handleScaleCommand (env : ConnectEnv) (connector : String) (tasks : Int) :
    Except String String × List Ev :=
  match env.getConfig connector with
  | .error m => (.error m, [.getConfigCall connector])
  | .ok cfg =>
    let newConfig := mapSet cfg.config "tasks.max" (toString tasks)
    (env.update connector newConfig,
     [.getConfigCall connector, .updateCall connector newConfig])

instance {ε α : Type} [DecidableEq ε] [DecidableEq α] : DecidableEq (Except ε α) := fun x y =>
  match x, y with
  | .error a, .error b => if h : a = b then isTrue (by rw [h]) else isFalse (by simp [h])
  | .ok a, .ok b => if h : a = b then isTrue (by rw [h]) else isFalse (by simp [h])
  | .error _, .ok _ => isFalse (by simp)
  | .ok _, .error _ => isFalse (by simp)

inductive ScaleOutcome where
  | usageError
  | ran (result : Except String String) (trace : List Ev)
deriving DecidableEq

/-- The scale pipeline of `main`: `withTasksMaxArg` installs the validator
`*args.tasks > 0`, and `Validates()` exits with a usage error before the
client is even constructed, so a rejected `tasks-max` issues no call. -/
def scaleMain (env : ConnectEnv) (connector : String) (tasks : Int) : ScaleOutcome :=
  if 0 < tasks then
    match handleScaleCommand env connector tasks with
    | (r, tr) => .ran r tr
  else .usageError

/-!
## Output printing model (utils/json.go and printOutputAndExit)

`PrintJson` re-parses a string payload when `-pretty` is requested.  The
Go `encoding/json` decoder is an external collaborator; we abstract it as
two validity oracles: `objOk s` holds when `json.Unmarshal` of `s` into a
`map[string]interface{}` succeeds, `arrOk s` when unmarshalling into a
`[]map[string]interface{}` succeeds.  The control flow around them — the
verbatim non-pretty path, the bracket test and the `panic(err)` calls — is
embedded from the source.
-/

inductive PrintOutcome where
  | printedRaw (s : String)
  | prettyPrinted
  | panicked
deriving DecidableEq

/-- `strings.HasPrefix(s, "[") && strings.HasSuffix(s, "]")`. -/
def isArrayStr (s : String) : Bool :=
  isPreB ['['] s.data && isPreB [']'] s.data.reverse

/-- Embeds `PrintJson` applied to a string payload. -/
def printJsonStr (objOk arrOk : String → Bool) (s : String) (pretty : Bool) : PrintOutcome :=
  if pretty = false then .printedRaw s
  else if isArrayStr s then
    if arrOk s then .prettyPrinted else .panicked
  else
    if objOk s then .prettyPrinted else .panicked

/-- Embeds `printOutputAndExit`: an error is printed through
`utils.PrintJson(err.Error(), pretty)` and the process exits 1; otherwise a
non-nil result is printed and the process exits 0.  The returned pair is
(print outcome, exit code). -/
def printOutputAndExit (objOk arrOk : String → Bool) (result : Option String)
    (err : Option String) (pretty : Bool) : Option (PrintOutcome × Nat) :=
  match err with
  | some m => some (printJsonStr objOk arrOk m pretty, 1)
  | none =>
    match result with
    | some r => some (printJsonStr objOk arrOk r pretty, 0)
    | none => none

/-!
## Schema registry CLI: the force-register path (cmd/schemaregistrycli/registrycli.go)

The registry client called by this binary (the variant whose methods
return `(value, error)` pairs) is not part of the sources; per the
specification it is a leaf that maps each method 1:1 to an HTTP call, so
it is modelled as an environment supplying each call's response, with one
trace event per call.
-/

structure Compatibility where
  value : String
deriving DecidableEq

structure NewSchemaVersion where
  subject : String
  id : String
  version : Int
  schema : String
deriving DecidableEq

/-- One event per registry-client call. -/
inductive RegEv where
  | getCompatCall (subject : String)
  | updateCompatCall (subject : String) (level : String)
  | registerCall (subject : String) (schema : String)
deriving DecidableEq

def RegEv.isCompatUpdate : RegEv → Bool
  | .updateCompatCall _ _ => true
  | _ => false

/-- Modelled from the spec: the schema-registry client variant used by
registrycli.go (methods returning `(value, error)`) is absent from the
sources; §6 of the specification fixes its interface as one HTTP call per
method, so each method is one environment consultation plus one event. -/
structure RegistryEnv where
  getCompat : String → Except String Compatibility
  updateCompat : String → String → Except String Compatibility
  register : String → String → Except String NewSchemaVersion

/-- Embeds the `register` arm of registrycli's `main`: when `-force` is
set, read the subject compatibility; if the read succeeded and the level
is not NONE, set it to NONE; register; then — regardless of the register
outcome — restore the remembered level when one was remembered and it was
not NONE.  Returns the issued calls and the register outcome. -/
def registerCmd (env : RegistryEnv) (force : Bool) (subject schema : String) :
    List RegEv × Except String NewSchemaVersion :=
  let (level, tr1) :=
    if force then
      match env.getCompat subject with
      | .error _ => ("", [RegEv.getCompatCall subject])
      | .ok comp =>
        if comp.value ≠ "NONE" then
          (comp.value, [RegEv.getCompatCall subject, RegEv.updateCompatCall subject "NONE"])
        else (comp.value, [RegEv.getCompatCall subject])
    else ("", [])
  let res := env.register subject schema
  let tr2 := tr1 ++ [RegEv.registerCall subject schema]
  let tr3 :=
    if force ∧ 0 < level.length ∧ level ≠ "NONE" then
      tr2 ++ [RegEv.updateCompatCall subject level]
    else tr2
  (tr3, res)

/-!
## Derived bookkeeping used to characterize the delete loops
-/

/-- Calls issued by running `deleteConnector` over each name in order. -/
def deleteTraces (env : ConnectEnv) (names : List String) : List Ev :=
  names.flatMap (fun n => (deleteConnector env n).2.1)

/-- Messages printed by running `deleteConnector` over each name in order. -/
def deleteOuts (env : ConnectEnv) (names : List String) : List Out :=
  names.flatMap (fun n => (deleteConnector env n).2.2)

/-- The per-name delete loop keeps only the error of the last processed
name (`e = deleteConnector(client, conn)` overwrites on each iteration). -/
def lastDeleteErr (env : ConnectEnv) (acc : Option String) : List String → Option String
  | [] => acc
  | n :: rest => lastDeleteErr env (deleteConnector env n).1 rest

/-!
## Concrete environments for witnesses and counterexamples
-/

/-- A worker with three connectors on which every call succeeds except the
status fetch of c2 and the delete of b2. -/
def runningStatus (n : String) : ConnectorStatus :=
  ⟨n, ⟨"RUNNING", "w1"⟩, [⟨"RUNNING", 0, "w1", ""⟩]⟩

def sampleConfig (n : String) : ConnectorTasksConfig :=
  ⟨n, [("connector.class", "FileSink"), ("tasks.max", "2")], [⟨n, 0⟩]⟩

/-- Witness worker: c1 and c3 are RUNNING, the status fetch of c2 fails. -/
def envC1 : ConnectEnv :=
  { listConnectors := .ok ["c1", "c2", "c3"]
    status := fun c => if c = "c2" then .error "boom" else .ok (runningStatus c)
    getConfig := fun c => .ok (sampleConfig c)
    deleteConn := fun _ => none
    pauseConn := fun _ => none
    resumeConn := fun _ => none
    restartTask := fun _ _ => none
    tasksOf := fun c => .ok c
    update := fun _ _ => .ok "updated" }

/-- Worker whose configuration fetches fail while deletes would succeed. -/
def envC2 : ConnectEnv :=
  { envC1 with getConfig := fun _ => .error "config boom" }

/-- Worker with connectors a, b, c where only the delete of b fails. -/
def envC3 : ConnectEnv :=
  { envC1 with
    listConnectors := .ok ["a", "b", "c"]
    status := fun c => .ok (runningStatus c)
    deleteConn := fun c => if c = "b" then some "delete boom" else none }

/-- Worker listing the two connectors a and ab, one a substring of the
other. -/
def envC5 : ConnectEnv :=
  { envC1 with listConnectors := .ok ["a", "ab"] }

/-- Registry whose subject compatibility is BACKWARD and whose register
call fails, to exhibit the compensating bracket on the failure path. -/
def envReg : RegistryEnv :=
  { getCompat := fun _ => .ok ⟨"BACKWARD"⟩
    updateCompat := fun _ _ => .ok ⟨"NONE"⟩
    register := fun _ _ => .error "register failed" }

/-!
## Lemmas about the regular-expression model
-/

theorem matchesPre_emp : ∀ cs, matchesPre .emp cs = false := by
  intro cs
  induction cs with
  | nil => rfl
  | cons c rest ih => simp [matchesPre, Regex.deriv, Regex.nullable, ih]

theorem matchesPre_lit : ∀ q cs, matchesPre (litPattern q) cs = isPreB q cs := by
  intro q
  induction q with
  | nil =>
    intro cs
    cases cs <;> simp [litPattern, matchesPre, Regex.nullable, isPreB]
  | cons a q ih =>
    intro cs
    cases cs with
    | nil => simp [litPattern, matchesPre, Regex.nullable, isPreB]
    | cons c rest =>
      by_cases h : a = c
      · subst h
        simp [litPattern, matchesPre, Regex.nullable, Regex.deriv, Regex.catS, isPreB, ih]
      · simp [litPattern, matchesPre, Regex.nullable, Regex.deriv, Regex.catS, isPreB, h,
          matchesPre_emp]

theorem searchB_lit : ∀ q cs, searchB (litPattern q) cs = substrB q cs := by
  intro q cs
  induction cs with
  | nil => simp [searchB, substrB, matchesPre_lit]
  | cons c rest ih => simp [searchB, substrB, matchesPre_lit, ih]

/-- The compiled form of the pattern `.*` matches every string. -/
theorem searchB_dotstar : ∀ cs, searchB (Regex.cat (.star .anyc) .eps) cs = true := by
  intro cs
  cases cs <;> simp [searchB, matchesPre, Regex.nullable]

theorem isPreB_refl : ∀ q, isPreB q q = true := by
  intro q
  induction q with
  | nil => rfl
  | cons a q ih => simp [isPreB, ih]

theorem substrB_refl : ∀ q, substrB q q = true := by
  intro q
  cases q with
  | nil => rfl
  | cons a q => simp [substrB, isPreB_refl]

theorem compileList_lit : ∀ cs, cs.all (fun c => !(metaChars.contains c) && c != '.') = true →
    compileList cs = some (litPattern cs) := by
  intro cs
  induction cs with
  | nil => intro _; rfl
  | cons c rest ih =>
    intro h
    simp only [List.all_cons, Bool.and_eq_true, bne_iff_ne, ne_eq] at h
    obtain ⟨⟨hm, hd⟩, hrest⟩ := h
    have hc : c ∉ metaChars := by simpa using hm
    have hatom : compileAtom c = some (.chr c) := by
      simp [compileAtom, hd, hc]
    cases rest with
    | nil => simp [compileList, hatom, litPattern]
    | cons d rest' =>
      have hd' : d ≠ '*' := by
        intro hEq
        have hall := hrest
        simp only [List.all_cons, Bool.and_eq_true] at hall
        have hm' := hall.1.1
        rw [hEq] at hm'
        simp [metaChars] at hm'
      have hrec := ih (by simpa using hrest)
      simp [compileList, hatom, hd', hrec, litPattern]

/-!
## Lemmas about the matcher and the delete loops
-/

theorem matchLoop_name (re : Regex) :
    ∀ names, matchLoop (nameMatcher re) names = (names.filter (fun n => searchStr re n), []) := by
  intro names
  induction names with
  | nil => rfl
  | cons n rest ih => simp [matchLoop, nameMatcher, ih, List.filter_cons]

theorem findMatching_name (env : ConnectEnv) (re : Regex) (names : List String)
    (h : env.listConnectors = .ok names) :
    findMatchingConnectors env (nameMatcher re) =
      (.ok (names.filter (fun n => searchStr re n)), [.listCall]) := by
  simp [findMatchingConnectors, h, matchLoop_name]

theorem getConfigCall_mem_deleteConnector (env : ConnectEnv) (n : String) :
    Ev.getConfigCall n ∈ (deleteConnector env n).2.1 := by
  unfold deleteConnector
  cases env.getConfig n with
  | error m => simp
  | ok cfg => cases env.deleteConn n <;> simp

theorem delete_foldl (env : ConnectEnv) :
    ∀ (ms : List String) (acc : CmdOut),
      ms.foldl (connCmdStep env .delete) acc =
        ⟨acc.res, lastDeleteErr env acc.err ms,
         acc.trace ++ deleteTraces env ms, acc.outs ++ deleteOuts env ms⟩ := by
  intro ms
  induction ms with
  | nil => intro acc; simp [lastDeleteErr, deleteTraces, deleteOuts]
  | cons n rest ih =>
    intro acc
    simp only [List.foldl_cons, ih]
    simp [connCmdStep, lastDeleteErr, deleteTraces, deleteOuts]

theorem deleteAllLoop_break (env : ConnectEnv) :
    ∀ (xs : List String) (y : String) (zs : List String),
      (∀ x ∈ xs, (deleteConnector env x).1 = none) →
      (deleteConnector env y).1 ≠ none →
      deleteAllLoop env (xs ++ y :: zs) = deleteAllLoop env (xs ++ [y]) := by
  intro xs
  induction xs with
  | nil =>
    intro y zs _ hy
    rcases hd : deleteConnector env y with ⟨e, tr, os⟩
    cases e with
    | none => rw [hd] at hy; simp at hy
    | some m => simp [deleteAllLoop, hd]
  | cons x xs ih =>
    intro y zs hxs hy
    have hx : (deleteConnector env x).1 = none := hxs x (by simp)
    rcases hd : deleteConnector env x with ⟨e, tr, os⟩
    rw [hd] at hx
    subst hx
    have hrest := ih y zs (fun a ha => hxs a (by simp [ha])) hy
    simp [deleteAllLoop, hd, hrest]

theorem lookup_mapSet_self (k v : String) :
    ∀ l : List (String × String), List.lookup k (mapSet l k v) = some v := by
  intro l
  induction l with
  | nil => simp [mapSet, List.lookup]
  | cons p rest ih =>
    rcases p with ⟨k', v'⟩
    by_cases h : k' = k
    · subst h; simp [mapSet, List.lookup]
    · simp [mapSet, h, List.lookup, ih, beq_false_of_ne (Ne.symm h)]

theorem lookup_mapSet_ne (k v k' : String) (hk : k' ≠ k) :
    ∀ l : List (String × String), List.lookup k' (mapSet l k v) = List.lookup k' l := by
  intro l
  induction l with
  | nil => simp [mapSet, List.lookup, beq_false_of_ne hk]
  | cons p rest ih =>
    rcases p with ⟨a, b⟩
    by_cases h : a = k
    · subst h
      simp [mapSet, List.lookup, beq_false_of_ne hk]
    · by_cases h2 : a = k'
      · subst h2; simp [mapSet, h, List.lookup]
      · simp [mapSet, h, List.lookup, beq_false_of_ne (Ne.symm h2), ih]

theorem filter_unique (p : String) (f : String → Bool) (hp : f p = true) :
    ∀ names : List String, names.count p = 1 →
      (∀ n ∈ names, n ≠ p → f n = false) → names.filter f = [p] := by
  intro names
  induction names with
  | nil => intro h; simp at h
  | cons n rest ih =>
    intro hcount hothers
    by_cases h : n = p
    · subst h
      have hzero : rest.count n = 0 := by
        have := hcount
        simp [List.count_cons] at this
        exact this
      have hnotmem : n ∉ rest := by simpa using List.count_eq_zero.mp hzero
      have hrest : rest.filter f = [] := by
        refine List.filter_eq_nil_iff.mpr ?_
        intro a ha
        have hne : a ≠ n := fun hEq => hnotmem (hEq ▸ ha)
        simp [hothers a (by simp [ha]) hne]
      simp [List.filter_cons, hp, hrest]
    · have hf : f n = false := hothers n (by simp) h
      have hcount' : rest.count p = 1 := by
        have := hcount
        simpa [List.count_cons, h] using this
      have := ih hcount' (fun a ha hne => hothers a (by simp [ha]) hne)
      simp [List.filter_cons, hf, this]

/-!
## Claims
-/

/-- Claim C9: every connect-client call funnels through
`requestAndGetResponse`; a response with status code in the inclusive
range 400..500 returns an error whose message is exactly the raw response
body, and any other status code is not treated as an error (the body is
the successful payload). -/
theorem c9_http_error_range (status : Nat) (body : String) :
    (400 ≤ status ∧ status ≤ 500 →
      requestAndGetResponse ⟨status, body⟩ = .error body) ∧
    (¬(400 ≤ status ∧ status ≤ 500) →
      requestAndGetResponse ⟨status, body⟩ = .ok body) := by
  constructor <;> intro h <;> simp [requestAndGetResponse, h]

theorem c9_http_error_range_witness :
    requestAndGetResponse ⟨404, "not found"⟩ = .error "not found" ∧
    requestAndGetResponse ⟨200, "payload"⟩ = .ok "payload" ∧
    requestAndGetResponse ⟨501, "oops"⟩ = .ok "oops" :=
  ⟨(c9_http_error_range 404 "not found").1 (by decide),
   (c9_http_error_range 200 "payload").2 (by decide),
   (c9_http_error_range 501 "oops").2 (by decide)⟩

/-- Claim C10: `PrintJson` on a string prints it verbatim and cannot panic
when pretty is false; with pretty set it panics whenever the decoder
rejects the string (as an object or, for a bracket-delimited string, as an
array of objects); and since `printOutputAndExit` routes error messages
through the same path, a non-decodable error message under `-pretty`
panics instead of reporting the error. -/
theorem c10_printjson_panic (objOk arrOk : String → Bool) (s : String) :
    (printJsonStr objOk arrOk s false = .printedRaw s) ∧
    (isArrayStr s = true → arrOk s = false →
      printJsonStr objOk arrOk s true = .panicked) ∧
    (isArrayStr s = false → objOk s = false →
      printJsonStr objOk arrOk s true = .panicked) ∧
    (∀ m : String, isArrayStr m = false → objOk m = false →
      printOutputAndExit objOk arrOk none (some m) true = some (.panicked, 1)) := by
  refine ⟨by simp [printJsonStr], ?_, ?_, ?_⟩
  · intro h1 h2; simp [printJsonStr, h1, h2]
  · intro h1 h2; simp [printJsonStr, h1, h2]
  · intro m h1 h2; simp [printOutputAndExit, printJsonStr, h1, h2]

theorem c10_printjson_panic_witness :
    printJsonStr (fun _ => false) (fun _ => false) "plain error text" false =
      .printedRaw "plain error text" ∧
    printJsonStr (fun _ => false) (fun _ => false) "plain error text" true = .panicked ∧
    printJsonStr (fun _ => false) (fun _ => false) "[1, 2]" true = .panicked ∧
    printOutputAndExit (fun _ => false) (fun _ => false) none (some "plain error text") true =
      some (.panicked, 1) :=
  ⟨(c10_printjson_panic (fun _ => false) (fun _ => false) "plain error text").1,
   (c10_printjson_panic (fun _ => false) (fun _ => false) "plain error text").2.2.1
     (by decide) rfl,
   (c10_printjson_panic (fun _ => false) (fun _ => false) "[1, 2]").2.1 (by decide) rfl,
   (c10_printjson_panic (fun _ => false) (fun _ => false) "x").2.2.2 "plain error text"
     (by decide) rfl⟩

/-- Claim C7: with -force on a subject whose compatibility reads as
BACKWARD, the register command issues exactly two compatibility-update
calls — to NONE before the register call and back to BACKWARD after it —
and the restoring call is issued regardless of the register outcome (the
environment, hence the register response, is universally quantified). -/
theorem c7_force_register_bracket (env : RegistryEnv) (subject schema : String)
    (h : env.getCompat subject = .ok ⟨"BACKWARD"⟩) :
    (registerCmd env true subject schema).1 =
      [RegEv.getCompatCall subject, RegEv.updateCompatCall subject "NONE",
       RegEv.registerCall subject schema, RegEv.updateCompatCall subject "BACKWARD"] ∧
    ((registerCmd env true subject schema).1.filter RegEv.isCompatUpdate).length = 2 := by
  have htr : (registerCmd env true subject schema).1 =
      [RegEv.getCompatCall subject, RegEv.updateCompatCall subject "NONE",
       RegEv.registerCall subject schema, RegEv.updateCompatCall subject "BACKWARD"] := by
    simp [registerCmd, h]
    decide
  refine ⟨htr, ?_⟩
  rw [htr]
  simp [RegEv.isCompatUpdate]

theorem c7_force_register_bracket_witness :
    (registerCmd envReg true "subj" "schema").1 =
      [RegEv.getCompatCall "subj", RegEv.updateCompatCall "subj" "NONE",
       RegEv.registerCall "subj" "schema", RegEv.updateCompatCall "subj" "BACKWARD"] ∧
    envReg.register "subj" "schema" = .error "register failed" :=
  ⟨(c7_force_register_bracket envReg "subj" "schema" rfl).1, rfl⟩

/-- Claim C6: the list command upcases the -with-state argument, and an
argument whose upcased form is not one of RUNNING, FAILED, PAUSED,
UNASSIGNED skips the state filter entirely: the result is the plain
List() response and the single issued call is the list call (no status
fetches). -/
theorem c6_unrecognized_state_skips_filter (env : ConnectEnv) (state : String)
    (h : connectStates.contains (goToUpper state) = false) :
    handleListCommand env state = (env.listConnectors, [.listCall]) := by
  have h' : goToUpper state ∉ connectStates := by simpa using h
  simp [handleListCommand, h']

theorem c6_unrecognized_state_skips_filter_witness :
    connectStates.contains (goToUpper "bogus") = false ∧
    handleListCommand envC1 "bogus" = (.ok ["c1", "c2", "c3"], [.listCall]) := by
  refine ⟨by decide, ?_⟩
  rw [c6_unrecognized_state_skips_filter envC1 "bogus" (by decide)]
  rfl

/-- Claim C1 (evaluation of the code at the failing input): in state-filter
mode at a worker where the status fetch of c2 fails, the matcher does
abort the remaining iteration (c3 is never consulted), but the loop-local
`e` of `findMatchingConnectors` shadows the named return, so the command
returns the partial match list as a SUCCESS and the fetch error never
reaches the caller — contradicting the claimed surfacing of the error. -/
theorem c1_state_filter_error_lost :
    handleListCommand envC1 "running" =
      (.ok ["c1"], [.listCall, .statusCall "c1", .statusCall "c2"]) ∧
    (handleListCommand envC1 "running").1 ≠ .error "boom" ∧
    envC1.status "c2" = .error "boom" := by decide

/-- Claim C2 counterexample: a connector whose configuration fetch fails
while its delete would succeed.  `deleteConnector` returns the fetch error
and never issues the delete call, so the delete does NOT proceed
independently of the config-fetch outcome. -/
theorem c2_counterexample :
    envC2.getConfig "foo" = .error "config boom" ∧
    envC2.deleteConn "foo" = none ∧
    deleteConnector envC2 "foo" = (some "config boom", [.getConfigCall "foo"], []) ∧
    Ev.deleteCall "foo" ∉ (deleteConnector envC2 "foo").2.1 := by decide

/-- Claim C2 (amended): the pre-delete configuration dump is not
best-effort — the delete call is issued exactly when the config fetch
succeeds; when the fetch fails, the delete is skipped and the fetch error
is returned as the name's outcome. -/
theorem c2_delete_gated_on_config (env : ConnectEnv) (n : String) :
    (∀ m, env.getConfig n = .error m →
      deleteConnector env n = (some m, [.getConfigCall n], [])) ∧
    (∀ cfg, env.getConfig n = .ok cfg →
      (deleteConnector env n).2.1 = [.getConfigCall n, .deleteCall n]) := by
  constructor
  · intro m h
    simp [deleteConnector, h]
  · intro cfg h
    unfold deleteConnector
    rw [h]
    cases env.deleteConn n <;> simp

theorem c2_delete_gated_on_config_witness :
    deleteConnector envC2 "bar" = (some "config boom", [.getConfigCall "bar"], []) ∧
    (deleteConnector envC1 "c1").2.1 = [.getConfigCall "c1", .deleteCall "c1"] :=
  ⟨(c2_delete_gated_on_config envC2 "bar").1 "config boom" rfl,
   (c2_delete_gated_on_config envC1 "c1").2 (sampleConfig "c1") rfl⟩

/-- Claim C4: a non-positive tasks-max is rejected by the argument
validator before any client call is made; for positive n the scale command
submits exactly the fetched configuration with tasks.max overwritten by
the decimal string of n, every other key keeping its value. -/
theorem c4_scale_validation_and_frame (env : ConnectEnv) (c : String) (n : Int) :
    (n ≤ 0 → scaleMain env c n = .usageError) ∧
    (∀ cfg, 0 < n → env.getConfig c = .ok cfg →
      scaleMain env c n =
        .ran (env.update c (mapSet cfg.config "tasks.max" (toString n)))
          [.getConfigCall c, .updateCall c (mapSet cfg.config "tasks.max" (toString n))] ∧
      List.lookup "tasks.max" (mapSet cfg.config "tasks.max" (toString n)) =
        some (toString n) ∧
      ∀ k, k ≠ "tasks.max" →
        List.lookup k (mapSet cfg.config "tasks.max" (toString n)) =
          List.lookup k cfg.config) := by
  constructor
  · intro h
    have h' : ¬ 0 < n := by omega
    simp [scaleMain, h']
  · intro cfg hn h
    refine ⟨?_, lookup_mapSet_self _ _ _, fun k hk => lookup_mapSet_ne _ _ _ hk _⟩
    simp [scaleMain, hn, handleScaleCommand, h]

theorem c4_scale_validation_and_frame_witness :
    scaleMain envC1 "c1" (-1) = .usageError ∧
    scaleMain envC1 "c1" 5 =
      .ran (.ok "updated")
        [.getConfigCall "c1",
         .updateCall "c1" [("connector.class", "FileSink"), ("tasks.max", "5")]] := by
  refine ⟨(c4_scale_validation_and_frame envC1 "c1" (-1)).1 (by decide), ?_⟩
  have h := ((c4_scale_validation_and_frame envC1 "c1" 5).2 (sampleConfig "c1")
    (by decide) rfl).1
  rw [h]
  decide

/-- Claim C8: matching the connector list against the pattern .* returns
the entire list in the order the list call produced it — the matcher is
the identity on the listed names. -/
theorem c8_dotstar_identity (env : ConnectEnv) (names : List String)
    (h : env.listConnectors = .ok names) :
    compilePattern ".*" = some (Regex.cat (.star .anyc) .eps) ∧
    findMatchingConnectors env (nameMatcher (Regex.cat (.star .anyc) .eps)) =
      (.ok names, [.listCall]) := by
  refine ⟨rfl, ?_⟩
  rw [findMatching_name env _ names h]
  have hall : names.filter (fun n => searchStr (Regex.cat (.star .anyc) .eps) n) = names :=
    List.filter_eq_self.mpr (fun a _ => by simp [searchStr, searchB_dotstar])
  rw [hall]

theorem c8_dotstar_identity_witness :
    findMatchingConnectors envC1 (nameMatcher (Regex.cat (.star .anyc) .eps)) =
      (.ok ["c1", "c2", "c3"], [.listCall]) :=
  (c8_dotstar_identity envC1 ["c1", "c2", "c3"] rfl).2

/-- Claim C5 counterexample: the pattern a is string-equal to exactly one
name of the listed names a and ab, yet unanchored regex matching also
selects ab, so the matcher does not return exactly the one equal name. -/
theorem c5_counterexample :
    compilePattern "a" = some (Regex.cat (.chr 'a') .eps) ∧
    (["a", "ab"].count "a") = 1 ∧
    findMatchingConnectors envC5 (nameMatcher (Regex.cat (.chr 'a') .eps)) =
      (.ok ["a", "ab"], [.listCall]) ∧
    (findMatchingConnectors envC5 (nameMatcher (Regex.cat (.chr 'a') .eps))).1 ≠
      .ok ["a"] := by decide

/-- Claim C5 (amended): for a metacharacter-free pattern that is
string-equal to exactly one listed name and occurs as a substring of no
other listed name, the matcher returns exactly that one name; in general
unanchored matching may additionally select any name containing the
pattern. -/
theorem c5_literal_unique_match (env : ConnectEnv) (names : List String) (p : String)
    (hl : env.listConnectors = .ok names) (hlit : isLiteralStr p = true)
    (hcount : names.count p = 1)
    (hnosub : ∀ n ∈ names, n ≠ p → substrB p.data n.data = false) :
    compilePattern p = some (litPattern p.data) ∧
    findMatchingConnectors env (nameMatcher (litPattern p.data)) =
      (.ok [p], [.listCall]) := by
  refine ⟨compileList_lit p.data (by simpa [isLiteralStr] using hlit), ?_⟩
  rw [findMatching_name env _ names hl]
  have hfp : (fun n => searchStr (litPattern p.data) n) p = true := by
    simp [searchStr, searchB_lit, substrB_refl]
  have hone := filter_unique p (fun n => searchStr (litPattern p.data) n) hfp names hcount
    (fun n hn hne => by simp [searchStr, searchB_lit, hnosub n hn hne])
  rw [hone]

theorem c5_literal_unique_match_witness :
    findMatchingConnectors envC1 (nameMatcher (litPattern "c2".data)) =
      (.ok ["c2"], [.listCall]) :=
  (c5_literal_unique_match envC1 ["c1", "c2", "c3"] "c2" rfl (by decide) (by decide)
    (by decide)).2

/-- Claim C3 counterexample: per-name delete over the three matched names
a, b, c where the delete of b fails.  Iteration does continue (a and c are
deleted, two success confirmations are printed) but the reported error is
`none`: the failure of b was overwritten by the success of c, so the
output does NOT contain one error entry per failed name. -/
theorem c3_counterexample :
    envC3.deleteConn "b" = some "delete boom" ∧
    handleConnectorCommands envC3 .delete ".*" = some
      { res := none, err := none,
        trace := [.listCall, .getConfigCall "a", .deleteCall "a", .getConfigCall "b",
          .deleteCall "b", .getConfigCall "c", .deleteCall "c"],
        outs := [.configDump "a" [("connector.class", "FileSink"), ("tasks.max", "2")],
          .saveNote, .deletedMsg "a",
          .configDump "b" [("connector.class", "FileSink"), ("tasks.max", "2")], .saveNote,
          .configDump "c" [("connector.class", "FileSink"), ("tasks.max", "2")], .saveNote,
          .deletedMsg "c"] } := by decide

/-- Claim C3 (amended): for per-name delete a failing name does not stop
the batch — `deleteConnector` runs for every matched name in order (its
config-fetch call appears in the trace for each match) and a success
confirmation is printed per succeeded name — but the reported error is
only the outcome of the LAST processed name, earlier failures being
overwritten; delete-all, in contrast, stops the whole batch at the first
failing delete and never touches the remaining connectors. -/
theorem c3_delete_batch_policies (env : ConnectEnv) (names : List String) (pat : String)
    (re : Regex) (hc : compilePattern pat = some re) (hl : env.listConnectors = .ok names)
    (env' : ConnectEnv) (xs : List String) (y : String) (zs : List String)
    (hxs : ∀ x ∈ xs, (deleteConnector env' x).1 = none)
    (hy : (deleteConnector env' y).1 ≠ none)
    (hl' : env'.listConnectors = .ok (xs ++ y :: zs)) :
    (handleConnectorCommands env .delete pat = some
      { res := none,
        err := lastDeleteErr env none (names.filter (fun n => searchStr re n)),
        trace := .listCall :: deleteTraces env (names.filter (fun n => searchStr re n)),
        outs := (if (names.filter (fun n => searchStr re n)).isEmpty
                   then [Out.noMatchMsg pat] else []) ++
                deleteOuts env (names.filter (fun n => searchStr re n)) }) ∧
    (∀ n ∈ names.filter (fun n => searchStr re n),
      Ev.getConfigCall n ∈ deleteTraces env (names.filter (fun n => searchStr re n))) ∧
    (handleDeleteAll env' =
      { res := none, err := none,
        trace := .listCall :: (deleteAllLoop env' (xs ++ [y])).1,
        outs := (deleteAllLoop env' (xs ++ [y])).2 }) := by
  refine ⟨?_, ?_, ?_⟩
  · simp only [handleConnectorCommands, hc, Option.map_some']
    rw [findMatching_name env re names hl]
    simp only [delete_foldl]
    rfl
  · intro n hn
    exact List.mem_flatMap.mpr ⟨n, hn, getConfigCall_mem_deleteConnector env n⟩
  · unfold handleDeleteAll
    rw [hl']
    rcases hres : deleteAllLoop env' (xs ++ [y]) with ⟨tr, os⟩
    have hbrk := deleteAllLoop_break env' xs y zs hxs hy
    rw [hres] at hbrk
    simp [hbrk, hres]

theorem c3_delete_batch_policies_witness :
    handleConnectorCommands envC3 .delete ".*" = some
      { res := none, err := none,
        trace := [.listCall, .getConfigCall "a", .deleteCall "a", .getConfigCall "b",
          .deleteCall "b", .getConfigCall "c", .deleteCall "c"],
        outs := [.configDump "a" [("connector.class", "FileSink"), ("tasks.max", "2")],
          .saveNote, .deletedMsg "a",
          .configDump "b" [("connector.class", "FileSink"), ("tasks.max", "2")], .saveNote,
          .configDump "c" [("connector.class", "FileSink"), ("tasks.max", "2")], .saveNote,
          .deletedMsg "c"] } ∧
    handleDeleteAll envC3 =
      { res := none, err := none,
        trace := [.listCall, .getConfigCall "a", .deleteCall "a", .getConfigCall "b",
          .deleteCall "b"],
        outs := [.configDump "a" [("connector.class", "FileSink"), ("tasks.max", "2")],
          .saveNote, .deletedMsg "a",
          .configDump "b" [("connector.class", "FileSink"), ("tasks.max", "2")],
          .saveNote] } := by
  have h := c3_delete_batch_policies envC3 ["a", "b", "c"] ".*"
    (Regex.cat (.star .anyc) .eps) rfl rfl envC3 ["a"] "b" ["c"]
    (by decide) (by decide) rfl
  refine ⟨?_, ?_⟩
  · rw [h.1]; decide
  · rw [h.2.2]; decide
